import Mathlib

/-!
Shallow embedding of `src/bin/bootstrap.py` (a Python bootstrap tool).

The tool is a linear orchestration of filesystem writes and child-process
invocations.  We model:
  * the filesystem as an association list from paths to file data;
  * the outside world (child-process execution) as a function from the
    composed script text to the pair (exit status, captured standard output);
  * observable side effects (temp-file creation, logging, chmod, process
    execution, printing, temp-file deletion) as an explicit event trace;
  * Python exceptions as `Except` results.

Path arithmetic (`os.path.dirname`, `os.path.join`, `os.path.normpath`)
is translated from CPython's `posixpath` module, operating on the
character lists underlying Lean strings.
-/

namespace Bootstrap

/-- Truthiness of an optional Python string: `None` and `''` are falsy. -/
def pyTruthy : Option String → Bool
  | none => false
  | some s => !s.isEmpty

/-- Model of `x or ''` for an optional Python string `x`: `None` and `''`
give `''`; a nonempty string gives itself (so `some s` gives `s` in every
case). -/
def pyOrEmpty : Option String → String
  | none => ""
  | some s => s

/-- Model of `posixpath.dirname`: the part of the path before the final
slash (everything up to and including the last `/`, then stripped of
trailing slashes unless it consists only of slashes). -/
def dirname (p : String) : String :=
  let head := (p.data.reverse.dropWhile (fun c => c ≠ '/')).reverse
  if head ≠ [] ∧ ¬ head.all (fun c => c = '/') then
    ⟨(head.reverse.dropWhile (fun c => c = '/')).reverse⟩
  else
    ⟨head⟩

/-- Model of `posixpath.join` on two components: an absolute second
component replaces the first; otherwise a separator is inserted unless the
first component is empty or already ends with a separator. -/
def joinOne (a b : String) : String :=
  if b.data.take 1 = ['/'] then b
  else if a.data = [] ∨ a.data.getLast? = some '/' then a ++ b
  else a ++ "/" ++ b

/-- Join a list of path components with the separator, as Python's
`'/'.join(comps)` does inside `posixpath.normpath`. -/
def joinSep (sep : List Char) : List (List Char) → List Char
  | [] => []
  | [c] => c
  | c :: cs => c ++ sep ++ joinSep sep cs

/-- One step of the component loop of `posixpath.normpath`: empty and `.`
components are dropped, `..` pops the last kept component when there is one
to pop (except below the root of a relative path, where it is kept, and at
the root of an absolute path, where it is dropped), every other component
is kept.  The stack holds the kept components in reverse. -/
def normStep (hasInitialSlash : Bool) (stack : List (List Char)) (comp : List Char) : List (List Char) :=
  if comp = [] ∨ comp = ['.'] then stack
  else if comp ≠ ['.', '.'] ∨ (¬ hasInitialSlash ∧ stack = []) ∨ stack.head? = some ['.', '.'] then
    comp :: stack
  else
    stack.tail

/-- Model of `posixpath.normpath`: collapse empty and `.` components,
resolve `..` against preceding components, and keep one or two initial
slashes (POSIX allows exactly two initial slashes a special meaning). -/
def normpath (p : String) : String :=
  if p.data = [] then "." else
  let nSlashes : Nat :=
    if p.data.take 2 = ['/', '/'] ∧ p.data.take 3 ≠ ['/', '/', '/'] then 2
    else if p.data.take 1 = ['/'] then 1 else 0
  let stack := (p.data.splitOn '/').foldl (normStep (nSlashes ≠ 0)) []
  let result := List.replicate nSlashes '/' ++ joinSep ['/'] stack.reverse
  if result = [] then "." else ⟨result⟩

/-- Directory holding the tool itself: in the source,
`CURRENT_DIR = os.path.dirname(os.path.realpath(os.path.abspath(__file__)))`.
The tool lives at `<project-root>/bin/bootstrap.py`, so `CURRENT_DIR` is the
`bin` directory under the project root; we take the (absolute, resolved)
project root as the parameter of the model. -/
def CURRENT_DIR (projectRoot : String) : String :=
  joinOne projectRoot "bin"

/-- Path of the activation helper: `ENV_SH = os.path.join(CURRENT_DIR, 'env.sh')`. -/
def ENV_SH (projectRoot : String) : String :=
  joinOne (CURRENT_DIR projectRoot) "env.sh"

/-- Target venv directory: in the source,
`VENV_DIR = os.path.abspath(os.path.join(CURRENT_DIR, '..', '.venv'))`.
`CURRENT_DIR` is absolute (it comes out of `os.path.realpath(os.path.abspath(...))`),
and `os.path.join` of an absolute path with relative components stays
absolute, so `os.path.abspath` reduces to `os.path.normpath` here. -/
def VENV_DIR (projectRoot : String) : String :=
  normpath (joinOne (joinOne (CURRENT_DIR projectRoot) "..") ".venv")

/-- Data stored at a path: the file's content and whether the execute bit
has been set by this tool (`os.chmod(path, 0o755)`). -/
structure FileData where
  content : String
  isExec : Bool
deriving DecidableEq, Repr

/-- Filesystem model: an association list from paths to file data; the
first binding of a path is its current data. -/
abbrev FS := List (String × FileData)

/-- Model of `os.path.exists`. -/
def osPathExists (fs : FS) (p : String) : Bool :=
  (List.lookup p fs).isSome

/-- Writing a file (`open(path, 'w')` followed by `f.write(...)`). -/
def fsWrite (fs : FS) (p : String) (d : FileData) : FS :=
  (p, d) :: fs

/-- Model of `os.chmod(path, 0o755)`: set the execute bit of every binding
of the path, leaving the content untouched. -/
def fsChmod : FS → String → Bool → FS
  | [], _, _ => []
  | (k, d) :: rest, p, ex =>
    (k, if k = p then ⟨d.content, ex⟩ else d) :: fsChmod rest p ex

/-- Content written by `create_env_file` (the source template with
surrounding whitespace stripped, exactly as `.strip()` leaves it). -/
def envShContent : String :=
  "#!/bin/bash\n\nPROJECT_DIR=$(realpath $(dirname $BASH_SOURCE)/..)\n\n# Location of venv directory\nVENV_DIR=$\x7bPROJECT_DIR\x7d/.venv\n\n# Run bootstrap.py to create the virtualenv environment\nif ! [ -d \"$\x7bVENV_DIR\x7d\" ]; then\n    echo \"No venv directory found, please run bootstrap.py to create the venv environment, exiting...\"\n    exit 1\nfi\n\n# Activate virtualenv if not already\nif [ -z \"$\x7bVIRTUAL_ENV\x7d\" ];\nthen\n    echo \"No active virtualenv found, activating from: \x27$\x7bVENV_DIR\x7d\x27\"\n    . $\x7bVENV_DIR\x7d/bin/activate\nfi\n\n# Include src dir as well\nexport PYTHONPATH=$\x7bPROJECT_DIR\x7d/src"

/-- Content written by `create_python_wrapper` (the source template with
surrounding whitespace stripped). -/
def pythonShContent : String :=
  "#!/bin/bash\n\n# Disable core dump (no more core dump files)\nulimit -c 0\n\nENV_SH=$(dirname $BASH_SOURCE)/env.sh\n\nif ! [ -f $\x7bENV_SH\x7d ];\nthen\n    echo \"Missing env.sh file exiting ...\"\n    exit 1\nfi\n\n. $\x7bENV_SH\x7d\n\nPYTHON=$\x7bVIRTUAL_ENV\x7d/bin/python\n\necho $\x7bPYTHON\x7d\n\nexec $\x7bPYTHON\x7d \"$@\""

/-- Model of `create_env_file()`: write the fixed `env.sh` template at
`os.path.join(CURRENT_DIR, 'env.sh')` unless a file already exists there. -/
def create_env_file (projectRoot : String) (fs : FS) : FS :=
  let path := joinOne (CURRENT_DIR projectRoot) "env.sh"
  if osPathExists fs path then fs
  else fsWrite fs path ⟨envShContent, false⟩

/-- Model of `create_python_wrapper()`: write the fixed `python.sh`
template at `os.path.join(CURRENT_DIR, 'python.sh')` unless a file already
exists there, then mark it executable (`os.chmod(path, 0o755)`). -/
def create_python_wrapper (projectRoot : String) (fs : FS) : FS :=
  let path := joinOne (CURRENT_DIR projectRoot) "python.sh"
  if osPathExists fs path then fs
  else fsChmod (fsWrite fs path ⟨pythonShContent, false⟩) path true

/-- Observable side effects of the tool, in order of occurrence. -/
inductive Event where
  | mkstemp (path : String)
  | log (msg : String)
  | chmod (path : String)
  | exec (script : String)
  | printed (output : Option String)
  | unlink (path : String)
deriving DecidableEq, Repr

/-- Error raised by `run_shell_command` on a non-zero exit status:
`subprocess.CalledProcessError(p.returncode, script_content)`. -/
structure CommandFailed where
  returncode : Int
  cmd : String
deriving DecidableEq, Repr

/-- Child-process behaviour, abstracted: executing a materialized script
yields an exit status and the bytes the child wrote to standard output. -/
abbrev World := String → Int × String

/-- Model of Python `str.splitlines` (over `\n` line boundaries): the
lines of the string, without a trailing empty line for a final newline. -/
def pySplitlines (s : String) : List String :=
  if s = "" then []
  else
    let parts := s.splitOn "\n"
    if parts.getLast? = some "" then parts.dropLast else parts

/-- Script text materialized by `run_shell_command`: a shebang line for the
chosen shell (when one is given), an optional `source <path>` line, then
every command token followed by a space, and a final newline. -/
def composeScript (commands : List String) (source_sh : Option String) (shell : String) : String :=
  (if shell ≠ "" then "#!" ++ shell ++ "\n" else "")
    ++ (if pyTruthy source_sh then "source " ++ pyOrEmpty source_sh ++ "\n" else "")
    ++ String.join (commands.map (fun c => c ++ " "))
    ++ "\n"

/-- Model of `run_shell_command(commands, source_sh, stdout, shell)`.
`tmp` is the fresh path handed out by `tempfile.mkstemp`; `capture` models
passing `stdout=subprocess.PIPE` (the captured output is `None` exactly
when `stdout` stays `None`).  Outside the `try` block the temp file is
created and the composed script is logged; inside it the file is made
executable and executed; a non-zero exit status prints the captured output
and raises `CommandFailed`; a zero exit status returns the captured output
split into lines (or nothing when not captured).  The `finally` clause
deletes the temp file on both exit paths. -/
def run_shell_command (w : World) (tmp : String) (commands : List String)
    (source_sh : Option String := none) (capture : Bool := false)
    (shell : String := "/bin/bash") :
    List Event × Except CommandFailed (Option (List String)) :=
  let script := composeScript commands source_sh shell
  let rc := (w script).1
  let output : Option String := if capture then some (w script).2 else none
  let tryPart : List Event × Except CommandFailed (Option (List String)) :=
    if rc ≠ 0 then
      ([Event.chmod tmp, Event.exec script, Event.printed output],
       Except.error ⟨rc, script⟩)
    else
      ([Event.chmod tmp, Event.exec script], Except.ok (output.map pySplitlines))
  (Event.mkstemp tmp
     :: Event.log ("Executing script:\n\"\"\"\n" ++ script ++ "\"\"\"")
     :: tryPart.1 ++ [Event.unlink tmp],
   tryPart.2)

/-- Candidate search of `setup_venv` (lines 133-149): the first truthy and
existing candidate wins; when none does, the unqualified name `virtualenv`
is used (to be resolved through the caller's search path at exec time). -/
def findFirstExisting (fs : FS) : List (Option String) → String
  | [] => "virtualenv"
  | p :: rest =>
    match p with
    | some s => if s ≠ "" ∧ osPathExists fs s then s else findFirstExisting fs rest
    | none => findFirstExisting fs rest

/-- Virtualenv-tool resolution performed by `setup_venv`: the explicit
path, then a sibling `virtualenv` next to the target python interpreter,
then `virtualenv` in the running interpreter's installation-prefix `bin`
directory (`sysExecDir` models `sys.exec_prefix`). -/
def resolve_virtualenv (fs : FS) (virtualenv_path : Option String)
    (python_path : String) (sysExecDir : String) : String :=
  findFirstExisting fs
    [ virtualenv_path,
      some (joinOne (dirname python_path) "virtualenv"),
      some (joinOne (joinOne sysExecDir "bin") "virtualenv") ]

/-- Model of `setup_venv(virtualenv_path, python_path)`: resolve the
virtualenv tool, log the target directory, and run
`<tool> --python=<python_path> --never-download <VENV_DIR>` through
`run_shell_command` with no output capture.  (The source also binds an
unused local `py_dir = os.path.dirname(python_path)`.) -/
def setup_venv (w : World) (tmp : String) (fs : FS) (projectRoot : String)
    (sysExecDir : String) (virtualenv_path : Option String) (python_path : String) :
    List Event × Except CommandFailed (Option (List String)) :=
  let virtualenv := resolve_virtualenv fs virtualenv_path python_path sysExecDir
  let commands := [virtualenv, "--python=" ++ python_path, "--never-download",
                   VENV_DIR projectRoot]
  let r := run_shell_command w tmp commands
  (Event.log ("Setting up venv directory at: \"" ++ VENV_DIR projectRoot ++ "\"")
     :: r.1,
   r.2)

/-- Errors the installation path can raise: the generic
`Exception("Requirement file: <req> does not exists.")` for a missing
manifest, or a propagated `CommandFailed` from `run_shell_command`. -/
inductive PyErr where
  | missingManifest (req : String)
  | commandFailed (e : CommandFailed)
deriving DecidableEq, Repr

/-- Python lets `requirements_files` be a single string or a list of
strings; a single string is wrapped into a one-element list. -/
inductive ReqArg where
  | str (s : String)
  | list (l : List String)

/-- Normalization at the top of `pip_install`:
`[requirements_files] if isinstance(requirements_files, str) else requirements_files`. -/
def reqList : ReqArg → List String
  | .str s => [s]
  | .list l => l

/-- Base installer command built by `pip_install` before the manifest
loop: the venv's own `pip`, the `install` subcommand, both index URLs and
the fixed network timeout. -/
def pipBaseCommands (projectRoot : String) (pip_index_url : String)
    (pip_extra_index_url : Option String) : List String :=
  [ joinOne (joinOne (VENV_DIR projectRoot) "bin") "pip",
    "install",
    "--index-url=" ++ pip_index_url,
    "--extra-index-url=" ++ pyOrEmpty pip_extra_index_url,
    "--timeout=120" ]

/-- Log line emitted before each manifest installation. -/
def pipLogMsg (req : String) : String :=
  "Pip installing requirement file: \"" ++ req ++ "\""

/-- Manifest loop of `pip_install` (lines 174-180): for each manifest in
input order, raise when the path does not exist, otherwise log and run the
installer command (sourcing `env_sh` first); a failed installer run stops
the loop and propagates.  `k` numbers the temp scripts handed out by
`tmps`. -/
def pip_install_loop (w : World) (tmps : Nat → String) (fs : FS)
    (commands : List String) (env_sh : String) :
    Nat → List String → List Event × Except PyErr Unit
  | _, [] => ([], Except.ok ())
  | k, req :: rest =>
    if osPathExists fs req = false then
      ([], Except.error (PyErr.missingManifest req))
    else
      let r := run_shell_command w (tmps k) (commands ++ ["--requirement=" ++ req])
                 (some env_sh) false "/bin/bash"
      match r.2 with
      | Except.error e =>
        (Event.log (pipLogMsg req) :: r.1, Except.error (PyErr.commandFailed e))
      | Except.ok _ =>
        let r2 := pip_install_loop w tmps fs commands env_sh (k + 1) rest
        (Event.log (pipLogMsg req) :: r.1 ++ r2.1, r2.2)

/-- Model of `pip_install(pip_index_url, pip_extra_index_url, requirements_files)`. -/
def pip_install (w : World) (tmps : Nat → String) (fs : FS) (projectRoot : String)
    (pip_index_url : String := "https://pypi.org/simple")
    (pip_extra_index_url : Option String := none)
    (requirements_files : ReqArg := ReqArg.list []) :
    List Event × Except PyErr Unit :=
  pip_install_loop w tmps fs
    (pipBaseCommands projectRoot pip_index_url pip_extra_index_url)
    (ENV_SH projectRoot) 0 (reqList requirements_files)

/-- Script run for one manifest by the loop: the base installer command
extended with `--requirement=<req>`, sourcing `env_sh` first. -/
def loopScript (commands : List String) (env_sh : String) (req : String) : String :=
  composeScript (commands ++ ["--requirement=" ++ req]) (some env_sh) "/bin/bash"

/-- Script run for one manifest by `pip_install`: the base installer command
extended with `--requirement=<req>`, sourcing the activation helper first. -/
def pipScript (projectRoot : String) (pip_index_url : String)
    (pip_extra_index_url : Option String) (req : String) : String :=
  loopScript (pipBaseCommands projectRoot pip_index_url pip_extra_index_url)
    (ENV_SH projectRoot) req

/-- Command-line configuration of `main` (every flag is optional in the
source; defaults are supplied by `argparse`). -/
structure Args where
  python : String
  virtualenv_path : Option String
  pip_index_url : String
  pip_extra_index_url : String
  requirements : List String

/-- Ambient execution context of `main`: whether `'VIRTUAL_ENV'` is a key
of `os.environ`, and `sys.exec_prefix` of the running interpreter. -/
structure Env where
  hasVirtualEnvMarker : Bool
  sysExecDir : String

/-- Model of `main()` after argument parsing: create the two helper files,
set up the venv unless the active-virtual-environment marker is present,
then install the manifests; the first raised error aborts the sequence. -/
def main (w : World) (tmps : Nat → String) (env : Env) (fs : FS)
    (projectRoot : String) (args : Args) :
    FS × List Event × Except PyErr Unit :=
  let fs1 := create_env_file projectRoot fs
  let fs2 := create_python_wrapper projectRoot fs1
  let setupPart : List Event × Except CommandFailed (Option (List String)) :=
    if env.hasVirtualEnvMarker then ([], Except.ok none)
    else setup_venv w (tmps 0) fs2 projectRoot env.sysExecDir args.virtualenv_path args.python
  match setupPart.2 with
  | Except.error e => (fs2, setupPart.1, Except.error (PyErr.commandFailed e))
  | Except.ok _ =>
    let r := pip_install w (fun k => tmps (k + 1)) fs2 projectRoot
               args.pip_index_url (some args.pip_extra_index_url)
               (ReqArg.list args.requirements)
    (fs2, setupPart.1 ++ r.1, r.2)

/-- Scripts executed along a trace, in order. -/
def execScripts (evs : List Event) : List String :=
  evs.filterMap (fun e => match e with | Event.exec s => some s | _ => none)

/-- Predicate picking out child-process executions in a trace. -/
def isExecEvent : Event → Bool
  | Event.exec _ => true
  | _ => false

/-- Predicate picking out temp-file deletions in a trace. -/
def isUnlinkEvent : Event → Bool
  | Event.unlink _ => true
  | _ => false

/-- A project root is clean-absolute when it is `/` followed by nonempty,
slash-free components none of which is `.` or `..` (the shape
`os.path.realpath` guarantees for `CURRENT_DIR`'s parent). -/
def cleanAbsPath (root : String) : Prop :=
  ∃ comps : List (List Char), comps ≠ [] ∧
    (∀ c ∈ comps, c ≠ [] ∧ '/' ∉ c ∧ c ≠ ['.'] ∧ c ≠ ['.', '.']) ∧
    root.data = '/' :: joinSep ['/'] comps

theorem osPathExists_fsWrite_self (fs : FS) (p : String) (d : FileData) :
    osPathExists (fsWrite fs p d) p = true := by
  simp [osPathExists, fsWrite, List.lookup]

theorem osPathExists_fsChmod (fs : FS) (p q : String) (ex : Bool) :
    osPathExists (fsChmod fs p ex) q = osPathExists fs q := by
  induction fs with
  | nil => rfl
  | cons e l ih =>
    obtain ⟨k, d⟩ := e
    simp only [fsChmod, osPathExists, List.lookup]
    cases hq : q == k
    · simpa [osPathExists] using ih
    · rfl

/-- C6: helper-file generation (`create_env_file` and `create_python_wrapper`)
is idempotent: when a file already exists at the fixed target path the
operation performs no write and leaves the filesystem unchanged, and running
either generator twice equals running it once (the second run is a no-op). -/
theorem helper_file_generation_idempotent (root : String) (fs : FS) :
    create_env_file root (create_env_file root fs) = create_env_file root fs
    ∧ create_python_wrapper root (create_python_wrapper root fs)
        = create_python_wrapper root fs
    ∧ (osPathExists fs (joinOne (CURRENT_DIR root) "env.sh") = true →
        create_env_file root fs = fs)
    ∧ (osPathExists fs (joinOne (CURRENT_DIR root) "python.sh") = true →
        create_python_wrapper root fs = fs) := by
  refine ⟨?_, ?_, ?_, ?_⟩
  · by_cases h : osPathExists fs (joinOne (CURRENT_DIR root) "env.sh")
    · simp [create_env_file, h]
    · simp [create_env_file, h, osPathExists_fsWrite_self]
  · by_cases h : osPathExists fs (joinOne (CURRENT_DIR root) "python.sh")
    · simp [create_python_wrapper, h]
    · simp [create_python_wrapper, h, osPathExists_fsChmod, osPathExists_fsWrite_self]
  · intro h
    simp [create_env_file, h]
  · intro h
    simp [create_python_wrapper, h]

/-- C9: given an empty manifest list, `pip_install` executes no installer
command at all (its trace is empty) and returns successfully. -/
theorem pip_install_empty_manifests (w : World) (tmps : Nat → String) (fs : FS)
    (root idx : String) (extra : Option String) :
    pip_install w tmps fs root idx extra (ReqArg.list []) = ([], Except.ok ()) := rfl

/-- C10: the composed installer command always contains the
`--extra-index-url` flag, at the fixed position after the primary index URL;
when the extra package-index URL is absent (`None`) or empty, the flag is
still included with an empty value (`--extra-index-url=`). -/
theorem pip_extra_index_flag_always_present (root idx : String) (extra : Option String) :
    (pipBaseCommands root idx extra)[3]?
        = some ("--extra-index-url=" ++ pyOrEmpty extra)
    ∧ ("--extra-index-url=" ++ pyOrEmpty extra) ∈ pipBaseCommands root idx extra
    ∧ (pipBaseCommands root idx none)[3]? = some "--extra-index-url="
    ∧ (pipBaseCommands root idx (some ""))[3]? = some "--extra-index-url=" := by
  refine ⟨rfl, by simp [pipBaseCommands], rfl, by simp [pipBaseCommands, pyOrEmpty]⟩

/-- C3: the temporary script file materialized by `run_shell_command` is
deleted exactly once on every exit path — the trace holds exactly one
deletion event, and it is the final action, whether the child process
succeeded or failed. -/
theorem run_shell_command_deletes_temp_exactly_once (w : World) (tmp : String)
    (commands : List String) (source_sh : Option String) (capture : Bool)
    (shell : String) :
    ((run_shell_command w tmp commands source_sh capture shell).1.countP isUnlinkEvent) = 1
    ∧ (run_shell_command w tmp commands source_sh capture shell).1.getLast?
        = some (Event.unlink tmp) := by
  by_cases h : (w (composeScript commands source_sh shell)).1 = 0 <;>
    simp [run_shell_command, h, isUnlinkEvent, List.countP_cons, List.countP_append,
      List.getLast?_append_cons]

/-- C2: `run_shell_command` returns the captured standard output split into
lines (or nothing when output was not captured) exactly when the child exits
with status zero; on a non-zero exit status it raises `CommandFailed`
carrying the exit code and the full composed script text, with the captured
output printed before the error propagates.  The error is raised if and only
if the exit status is non-zero. -/
theorem run_shell_command_result_matches_exit_status (w : World) (tmp : String)
    (commands : List String) (source_sh : Option String) (capture : Bool)
    (shell : String) :
    ((w (composeScript commands source_sh shell)).1 = 0 →
      (run_shell_command w tmp commands source_sh capture shell).2
        = Except.ok ((if capture then some (w (composeScript commands source_sh shell)).2
                      else none).map pySplitlines))
    ∧ ((w (composeScript commands source_sh shell)).1 ≠ 0 →
      (run_shell_command w tmp commands source_sh capture shell).2
          = Except.error ⟨(w (composeScript commands source_sh shell)).1,
                          composeScript commands source_sh shell⟩
        ∧ Event.printed (if capture then some (w (composeScript commands source_sh shell)).2
                         else none)
            ∈ (run_shell_command w tmp commands source_sh capture shell).1)
    ∧ ((∃ e, (run_shell_command w tmp commands source_sh capture shell).2 = Except.error e)
        ↔ (w (composeScript commands source_sh shell)).1 ≠ 0) := by
  by_cases h : (w (composeScript commands source_sh shell)).1 = 0 <;>
    simp [run_shell_command, h]

theorem joinOne_ne_empty (a b : String) (hb : b ≠ "") : joinOne a b ≠ "" := by
  have hbd : b.data ≠ [] := fun h => hb (String.ext h)
  unfold joinOne
  split
  · exact hb
  · split <;>
      · intro h
        apply hbd
        have := congrArg String.data h
        simp only [String.data_append] at this
        rcases List.append_eq_nil.mp this with ⟨-, h2⟩
        simp_all [List.append_eq_nil]

/-- C4: virtualenv-tool resolution in `setup_venv` is a deterministic
function of its inputs and the filesystem: the explicit path (when given),
then the sibling `virtualenv` next to the target python interpreter, then
`virtualenv` in the running interpreter's installation-prefix `bin`
directory; the first candidate that exists wins, and when none exists the
unqualified name `virtualenv` is used with no error raised at resolution
time.  The resolved tool is the one handed to the creation command. -/
theorem setup_venv_tool_resolution (w : World) (tmp : String) (fs : FS)
    (root sysd ppath : String) (vpath : Option String) :
    resolve_virtualenv fs vpath ppath sysd =
      (match vpath with
       | some s =>
         if s ≠ "" ∧ osPathExists fs s then s
         else if osPathExists fs (joinOne (dirname ppath) "virtualenv") then
           joinOne (dirname ppath) "virtualenv"
         else if osPathExists fs (joinOne (joinOne sysd "bin") "virtualenv") then
           joinOne (joinOne sysd "bin") "virtualenv"
         else "virtualenv"
       | none =>
         if osPathExists fs (joinOne (dirname ppath) "virtualenv") then
           joinOne (dirname ppath) "virtualenv"
         else if osPathExists fs (joinOne (joinOne sysd "bin") "virtualenv") then
           joinOne (joinOne sysd "bin") "virtualenv"
         else "virtualenv")
    ∧ Event.exec (composeScript
        [resolve_virtualenv fs vpath ppath sysd, "--python=" ++ ppath,
         "--never-download", VENV_DIR root] none "/bin/bash")
        ∈ (setup_venv w tmp fs root sysd vpath ppath).1 := by
  have hcb : joinOne (dirname ppath) "virtualenv" ≠ "" :=
    joinOne_ne_empty _ _ (by decide)
  have hcc : joinOne (joinOne sysd "bin") "virtualenv" ≠ "" :=
    joinOne_ne_empty _ _ (by decide)
  constructor
  · cases vpath <;> simp [resolve_virtualenv, findFirstExisting, hcb, hcc]
  · by_cases h : (w (composeScript [resolve_virtualenv fs vpath ppath sysd,
        "--python=" ++ ppath, "--never-download", VENV_DIR root] none "/bin/bash")).1 = 0 <;>
      simp [setup_venv, run_shell_command, h]

theorem execScripts_nil : execScripts [] = [] := rfl

theorem execScripts_append (l₁ l₂ : List Event) :
    execScripts (l₁ ++ l₂) = execScripts l₁ ++ execScripts l₂ :=
  List.filterMap_append _ _ _

theorem execScripts_cons_mkstemp (p : String) (l : List Event) :
    execScripts (Event.mkstemp p :: l) = execScripts l := rfl

theorem execScripts_cons_log (m : String) (l : List Event) :
    execScripts (Event.log m :: l) = execScripts l := rfl

theorem execScripts_cons_chmod (p : String) (l : List Event) :
    execScripts (Event.chmod p :: l) = execScripts l := rfl

theorem execScripts_cons_exec (s : String) (l : List Event) :
    execScripts (Event.exec s :: l) = s :: execScripts l := rfl

theorem execScripts_cons_printed (o : Option String) (l : List Event) :
    execScripts (Event.printed o :: l) = execScripts l := rfl

theorem execScripts_cons_unlink (p : String) (l : List Event) :
    execScripts (Event.unlink p :: l) = execScripts l := rfl

theorem pip_loop_first_missing (w : World) (tmps : Nat → String) (fs : FS)
    (commands : List String) (env_sh : String) (m : String) (rest : List String) :
    ∀ (pre : List String) (k : Nat),
      (∀ r ∈ pre, osPathExists fs r = true) →
      osPathExists fs m = false →
      (∀ r ∈ pre, (w (loopScript commands env_sh r)).1 = 0) →
      (pip_install_loop w tmps fs commands env_sh k (pre ++ m :: rest)).2
          = Except.error (PyErr.missingManifest m)
      ∧ execScripts (pip_install_loop w tmps fs commands env_sh k (pre ++ m :: rest)).1
          = pre.map (loopScript commands env_sh) := by
  intro pre
  induction pre with
  | nil =>
    intro k _ hm _
    simp [pip_install_loop, hm, execScripts_nil]
  | cons r pre ih =>
    intro k hpre hm hsucc
    have hr : osPathExists fs r = true := hpre r (by simp)
    have hrc : (w (loopScript commands env_sh r)).1 = 0 := hsucc r (by simp)
    have ihk := ih (k + 1) (fun x hx => hpre x (by simp [hx])) hm
      (fun x hx => hsucc x (by simp [hx]))
    simp only [loopScript] at hrc
    simp [pip_install_loop, hr, run_shell_command, hrc, loopScript,
      execScripts_append, execScripts_cons_mkstemp, execScripts_cons_log,
      execScripts_cons_chmod, execScripts_cons_exec, execScripts_cons_printed,
      execScripts_cons_unlink, execScripts_nil, ihk.1, ihk.2]

theorem pip_loop_all_success (w : World) (tmps : Nat → String) (fs : FS)
    (commands : List String) (env_sh : String) :
    ∀ (reqs : List String) (k : Nat),
      (∀ r ∈ reqs, osPathExists fs r = true) →
      (∀ r ∈ reqs, (w (loopScript commands env_sh r)).1 = 0) →
      (pip_install_loop w tmps fs commands env_sh k reqs).2 = Except.ok ()
      ∧ execScripts (pip_install_loop w tmps fs commands env_sh k reqs).1
          = reqs.map (loopScript commands env_sh) := by
  intro reqs
  induction reqs with
  | nil =>
    intro k _ _
    simp [pip_install_loop, execScripts_nil]
  | cons r reqs ih =>
    intro k hex hsucc
    have hr : osPathExists fs r = true := hex r (by simp)
    have hrc : (w (loopScript commands env_sh r)).1 = 0 := hsucc r (by simp)
    have ihk := ih (k + 1) (fun x hx => hex x (by simp [hx]))
      (fun x hx => hsucc x (by simp [hx]))
    simp only [loopScript] at hrc
    simp [pip_install_loop, hr, run_shell_command, hrc, loopScript,
      execScripts_append, execScripts_cons_mkstemp, execScripts_cons_log,
      execScripts_cons_chmod, execScripts_cons_exec, execScripts_cons_printed,
      execScripts_cons_unlink, execScripts_nil, ihk.1, ihk.2]

theorem pip_loop_stops_on_failure (w : World) (tmps : Nat → String) (fs : FS)
    (commands : List String) (env_sh : String) (m : String) (rest : List String) :
    ∀ (pre : List String) (k : Nat),
      (∀ r ∈ pre ++ m :: rest, osPathExists fs r = true) →
      (∀ r ∈ pre, (w (loopScript commands env_sh r)).1 = 0) →
      (w (loopScript commands env_sh m)).1 ≠ 0 →
      (pip_install_loop w tmps fs commands env_sh k (pre ++ m :: rest)).2
          = Except.error (PyErr.commandFailed
              ⟨(w (loopScript commands env_sh m)).1, loopScript commands env_sh m⟩)
      ∧ execScripts (pip_install_loop w tmps fs commands env_sh k (pre ++ m :: rest)).1
          = (pre ++ [m]).map (loopScript commands env_sh) := by
  intro pre
  induction pre with
  | nil =>
    intro k hex _ hm
    have hmex : osPathExists fs m = true := hex m (by simp)
    simp only [loopScript] at hm
    simp [pip_install_loop, hmex, run_shell_command, hm, loopScript,
      execScripts_append, execScripts_cons_mkstemp, execScripts_cons_log,
      execScripts_cons_chmod, execScripts_cons_exec, execScripts_cons_printed,
      execScripts_cons_unlink, execScripts_nil]
  | cons r pre ih =>
    intro k hex hpre hm
    have hr : osPathExists fs r = true := hex r (by simp)
    have hrc : (w (loopScript commands env_sh r)).1 = 0 := hpre r (by simp)
    have ihk := ih (k + 1) (fun x hx => hex x (by simp; simp at hx; tauto))
      (fun x hx => hpre x (by simp [hx])) hm
    simp only [loopScript] at hrc
    simp [pip_install_loop, hr, run_shell_command, hrc, loopScript,
      execScripts_append, execScripts_cons_mkstemp, execScripts_cons_log,
      execScripts_cons_chmod, execScripts_cons_exec, execScripts_cons_printed,
      execScripts_cons_unlink, execScripts_nil, ihk.1, ihk.2]

/-- C1 (counterexample): with `--requirements a b` where `a` exists and `b`
does not, `pip_install` does NOT validate every path before installing any:
it fails naming `b`, but an install command has already been invoked (the
trace holds one process execution), contradicting the claim that no install
command is ever invoked when some listed path is missing. -/
theorem pip_install_no_preinstall_validation_counterexample :
    osPathExists [("/proj/a.txt", (⟨"", false⟩ : FileData))] "/proj/b.txt" = false
    ∧ ((pip_install (fun _ => ((0 : Int), "")) (fun k => "/tmp/t" ++ toString k)
          [("/proj/a.txt", ⟨"", false⟩)] "/proj" "https://pypi.org/simple" none
          (ReqArg.list ["/proj/a.txt", "/proj/b.txt"])).1.countP isExecEvent) = 1
    ∧ (pip_install (fun _ => ((0 : Int), "")) (fun k => "/tmp/t" ++ toString k)
          [("/proj/a.txt", ⟨"", false⟩)] "/proj" "https://pypi.org/simple" none
          (ReqArg.list ["/proj/a.txt", "/proj/b.txt"])).2
        = Except.error (PyErr.missingManifest "/proj/b.txt") := by
  refine ⟨rfl, rfl, rfl⟩

/-- C1 (amended): `pip_install` validates each manifest path immediately
before that manifest's installation, not all paths up front: when the
manifests before `m` all exist and install cleanly and `m` is missing, the
operation fails with an error naming `m` (the first missing path), installer
commands have been invoked exactly for the manifests before `m` in input
order, and none is invoked for `m` or any later manifest. -/
theorem pip_install_validates_each_manifest_lazily (w : World) (tmps : Nat → String)
    (fs : FS) (root idx : String) (extra : Option String)
    (pre rest : List String) (m : String)
    (hpre : ∀ r ∈ pre, osPathExists fs r = true)
    (hm : osPathExists fs m = false)
    (hsucc : ∀ r ∈ pre, (w (pipScript root idx extra r)).1 = 0) :
    (pip_install w tmps fs root idx extra (ReqArg.list (pre ++ m :: rest))).2
        = Except.error (PyErr.missingManifest m)
    ∧ execScripts (pip_install w tmps fs root idx extra (ReqArg.list (pre ++ m :: rest))).1
        = pre.map (pipScript root idx extra) := by
  have h := pip_loop_first_missing w tmps fs (pipBaseCommands root idx extra)
    (ENV_SH root) m rest pre 0 hpre hm (by simpa [pipScript] using hsucc)
  simpa [pip_install, reqList, pipScript] using h

theorem pip_install_validates_each_manifest_lazily_witness :
    ((pip_install (fun _ => ((0 : Int), "")) (fun k => "/tmp/t" ++ toString k)
          [("/proj/a.txt", ⟨"", false⟩)] "/proj" "https://pypi.org/simple" none
          (ReqArg.list (["/proj/a.txt"] ++ "/proj/b.txt" :: []))).2
        = Except.error (PyErr.missingManifest "/proj/b.txt"))
    ∧ execScripts (pip_install (fun _ => ((0 : Int), "")) (fun k => "/tmp/t" ++ toString k)
          [("/proj/a.txt", ⟨"", false⟩)] "/proj" "https://pypi.org/simple" none
          (ReqArg.list (["/proj/a.txt"] ++ "/proj/b.txt" :: []))).1
        = ["/proj/a.txt"].map (pipScript "/proj" "https://pypi.org/simple" none) :=
  pip_install_validates_each_manifest_lazily
    (fun _ => ((0 : Int), "")) (fun k => "/tmp/t" ++ toString k)
    [("/proj/a.txt", ⟨"", false⟩)] "/proj" "https://pypi.org/simple" none
    ["/proj/a.txt"] [] "/proj/b.txt"
    (by decide) (by decide) (by intro r hr; rfl)

/-- C7: for a manifest list in which every path exists, `pip_install`
attempts installation for each manifest in input order; when every
invocation succeeds all manifests are attempted in order, and when the
installer invocation for manifest `m` fails, installation has been attempted
exactly for the manifests up to and including `m` in input order — never for
the manifests after it — and the failure propagates. -/
theorem pip_install_attempts_in_order_until_failure (w : World) (tmps : Nat → String)
    (fs : FS) (root idx : String) (extra : Option String) (reqs : List String)
    (hex : ∀ r ∈ reqs, osPathExists fs r = true) :
    ((∀ r ∈ reqs, (w (pipScript root idx extra r)).1 = 0) →
      (pip_install w tmps fs root idx extra (ReqArg.list reqs)).2 = Except.ok ()
      ∧ execScripts (pip_install w tmps fs root idx extra (ReqArg.list reqs)).1
          = reqs.map (pipScript root idx extra))
    ∧ (∀ pre m rest, reqs = pre ++ m :: rest →
        (∀ r ∈ pre, (w (pipScript root idx extra r)).1 = 0) →
        (w (pipScript root idx extra m)).1 ≠ 0 →
        (pip_install w tmps fs root idx extra (ReqArg.list reqs)).2
            = Except.error (PyErr.commandFailed
                ⟨(w (pipScript root idx extra m)).1, pipScript root idx extra m⟩)
        ∧ execScripts (pip_install w tmps fs root idx extra (ReqArg.list reqs)).1
            = (pre ++ [m]).map (pipScript root idx extra)) := by
  constructor
  · intro hsucc
    have h := pip_loop_all_success w tmps fs (pipBaseCommands root idx extra)
      (ENV_SH root) reqs 0 hex (by simpa [pipScript] using hsucc)
    simpa [pip_install, reqList, pipScript] using h
  · intro pre m rest hsplit hpre hm
    subst hsplit
    have h := pip_loop_stops_on_failure w tmps fs (pipBaseCommands root idx extra)
      (ENV_SH root) m rest pre 0 hex (by simpa [pipScript] using hpre)
      (by simpa [pipScript] using hm)
    simpa [pip_install, reqList, pipScript] using h

theorem pip_install_attempts_in_order_until_failure_witness :
    (((∀ r ∈ ["/proj/a.txt", "/proj/b.txt"],
          ((fun s => if s = pipScript "/proj" "https://pypi.org/simple" none "/proj/b.txt"
                     then ((1 : Int), "boom") else ((0 : Int), "")) (pipScript "/proj" "https://pypi.org/simple" none r)).1 = 0) →
        (pip_install (fun s => if s = pipScript "/proj" "https://pypi.org/simple" none "/proj/b.txt"
                     then ((1 : Int), "boom") else ((0 : Int), ""))
            (fun k => "/tmp/t" ++ toString k)
            [("/proj/a.txt", ⟨"", false⟩), ("/proj/b.txt", ⟨"", false⟩)] "/proj"
            "https://pypi.org/simple" none
            (ReqArg.list ["/proj/a.txt", "/proj/b.txt"])).2 = Except.ok ()
        ∧ execScripts (pip_install (fun s => if s = pipScript "/proj" "https://pypi.org/simple" none "/proj/b.txt"
                     then ((1 : Int), "boom") else ((0 : Int), ""))
            (fun k => "/tmp/t" ++ toString k)
            [("/proj/a.txt", ⟨"", false⟩), ("/proj/b.txt", ⟨"", false⟩)] "/proj"
            "https://pypi.org/simple" none
            (ReqArg.list ["/proj/a.txt", "/proj/b.txt"])).1
          = ["/proj/a.txt", "/proj/b.txt"].map (pipScript "/proj" "https://pypi.org/simple" none))
      ∧ (∀ pre m rest, ["/proj/a.txt", "/proj/b.txt"] = pre ++ m :: rest →
          (∀ r ∈ pre,
            ((fun s => if s = pipScript "/proj" "https://pypi.org/simple" none "/proj/b.txt"
                       then ((1 : Int), "boom") else ((0 : Int), "")) (pipScript "/proj" "https://pypi.org/simple" none r)).1 = 0) →
          ((fun s => if s = pipScript "/proj" "https://pypi.org/simple" none "/proj/b.txt"
                     then ((1 : Int), "boom") else ((0 : Int), "")) (pipScript "/proj" "https://pypi.org/simple" none m)).1 ≠ 0 →
          (pip_install (fun s => if s = pipScript "/proj" "https://pypi.org/simple" none "/proj/b.txt"
                       then ((1 : Int), "boom") else ((0 : Int), ""))
              (fun k => "/tmp/t" ++ toString k)
              [("/proj/a.txt", ⟨"", false⟩), ("/proj/b.txt", ⟨"", false⟩)] "/proj"
              "https://pypi.org/simple" none
              (ReqArg.list ["/proj/a.txt", "/proj/b.txt"])).2
              = Except.error (PyErr.commandFailed
                  ⟨((fun s => if s = pipScript "/proj" "https://pypi.org/simple" none "/proj/b.txt"
                              then ((1 : Int), "boom") else ((0 : Int), "")) (pipScript "/proj" "https://pypi.org/simple" none m)).1,
                   pipScript "/proj" "https://pypi.org/simple" none m⟩)
          ∧ execScripts (pip_install (fun s => if s = pipScript "/proj" "https://pypi.org/simple" none "/proj/b.txt"
                         then ((1 : Int), "boom") else ((0 : Int), ""))
              (fun k => "/tmp/t" ++ toString k)
              [("/proj/a.txt", ⟨"", false⟩), ("/proj/b.txt", ⟨"", false⟩)] "/proj"
              "https://pypi.org/simple" none
              (ReqArg.list ["/proj/a.txt", "/proj/b.txt"])).1
              = (pre ++ [m]).map (pipScript "/proj" "https://pypi.org/simple" none))) :=
  pip_install_attempts_in_order_until_failure
    (fun s => if s = pipScript "/proj" "https://pypi.org/simple" none "/proj/b.txt"
              then ((1 : Int), "boom") else ((0 : Int), ""))
    (fun k => "/tmp/t" ++ toString k)
    [("/proj/a.txt", ⟨"", false⟩), ("/proj/b.txt", ⟨"", false⟩)] "/proj"
    "https://pypi.org/simple" none ["/proj/a.txt", "/proj/b.txt"]
    (by decide)

theorem pip_loop_exec_only_pip_scripts (w : World) (tmps : Nat → String) (fs : FS)
    (commands : List String) (env_sh : String) :
    ∀ (reqs : List String) (k : Nat) (s : String),
      Event.exec s ∈ (pip_install_loop w tmps fs commands env_sh k reqs).1 →
      ∃ req ∈ reqs, s = loopScript commands env_sh req := by
  intro reqs
  induction reqs with
  | nil =>
    intro k s h
    simp [pip_install_loop] at h
  | cons r rest ih =>
    intro k s h
    by_cases hr : osPathExists fs r = true
    · by_cases hrc : (w (composeScript (commands ++ ["--requirement=" ++ r])
          (some env_sh) "/bin/bash")).1 = 0
      · simp [pip_install_loop, hr, run_shell_command, hrc] at h
        rcases h with h | h
        · exact ⟨r, by simp, by simp [loopScript, h]⟩
        · rcases ih (k + 1) s h with ⟨req, hreq, hs⟩
          exact ⟨req, by simp [hreq], hs⟩
      · simp [pip_install_loop, hr, run_shell_command, hrc] at h
        exact ⟨r, by simp, by simp [loopScript, h]⟩
    · simp [pip_install_loop, hr] at h

/-- C5: when the active-virtual-environment marker (`VIRTUAL_ENV` in the
process environment) is present, `main` never invokes `setup_venv`: its
result equals that of helper-file generation followed directly by manifest
installation, and every child process it executes is an installer command
for one of the configured manifests — no virtual-environment-creation
command is ever executed. -/
theorem main_marker_skips_venv_creation (w : World) (tmps : Nat → String)
    (env : Env) (fs : FS) (root : String) (args : Args)
    (h : env.hasVirtualEnvMarker = true) :
    main w tmps env fs root args
      = (create_python_wrapper root (create_env_file root fs),
         (pip_install w (fun k => tmps (k + 1))
            (create_python_wrapper root (create_env_file root fs)) root
            args.pip_index_url (some args.pip_extra_index_url)
            (ReqArg.list args.requirements)).1,
         (pip_install w (fun k => tmps (k + 1))
            (create_python_wrapper root (create_env_file root fs)) root
            args.pip_index_url (some args.pip_extra_index_url)
            (ReqArg.list args.requirements)).2)
    ∧ (∀ s, Event.exec s ∈ (main w tmps env fs root args).2.1 →
        ∃ req ∈ args.requirements,
          s = pipScript root args.pip_index_url (some args.pip_extra_index_url) req) := by
  constructor
  · simp [main, h]
  · intro s hs
    simp only [main, h, if_true, ite_true] at hs
    simp only [List.nil_append] at hs
    have := pip_loop_exec_only_pip_scripts w (fun k => tmps (k + 1))
      (create_python_wrapper root (create_env_file root fs))
      (pipBaseCommands root args.pip_index_url (some args.pip_extra_index_url))
      (ENV_SH root) args.requirements 0 s (by
        simpa [pip_install, reqList] using hs)
    simpa [pipScript] using this

theorem main_marker_skips_venv_creation_witness :
    (main (fun _ => ((0 : Int), "")) (fun k => "/tmp/t" ++ toString k)
        ⟨true, "/usr"⟩ [] "/proj"
        ⟨"/usr/bin/python", none, "https://pypi.org/simple", "", []⟩
      = (create_python_wrapper "/proj" (create_env_file "/proj" []),
         (pip_install (fun _ => ((0 : Int), "")) (fun k => (fun j => "/tmp/t" ++ toString j) (k + 1))
            (create_python_wrapper "/proj" (create_env_file "/proj" [])) "/proj"
            "https://pypi.org/simple" (some "") (ReqArg.list [])).1,
         (pip_install (fun _ => ((0 : Int), "")) (fun k => (fun j => "/tmp/t" ++ toString j) (k + 1))
            (create_python_wrapper "/proj" (create_env_file "/proj" [])) "/proj"
            "https://pypi.org/simple" (some "") (ReqArg.list [])).2))
    ∧ (∀ s, Event.exec s ∈ (main (fun _ => ((0 : Int), "")) (fun k => "/tmp/t" ++ toString k)
          ⟨true, "/usr"⟩ [] "/proj"
          ⟨"/usr/bin/python", none, "https://pypi.org/simple", "", []⟩).2.1 →
        ∃ req ∈ ([] : List String),
          s = pipScript "/proj" "https://pypi.org/simple" (some "") req) :=
  main_marker_skips_venv_creation (fun _ => ((0 : Int), ""))
    (fun k => "/tmp/t" ++ toString k) ⟨true, "/usr"⟩ [] "/proj"
    ⟨"/usr/bin/python", none, "https://pypi.org/simple", "", []⟩ rfl

theorem joinSep_cons_of_ne_nil (sep c : List Char) (cs : List (List Char)) (h : cs ≠ []) :
    joinSep sep (c :: cs) = c ++ sep ++ joinSep sep cs := by
  cases cs with
  | nil => exact absurd rfl h
  | cons c' cs' => rfl

theorem joinSep_ne_nil (comps : List (List Char)) (h : comps ≠ [])
    (hne : ∀ c ∈ comps, c ≠ []) : joinSep ['/'] comps ≠ [] := by
  cases comps with
  | nil => exact absurd rfl h
  | cons c cs =>
    cases cs with
    | nil => exact hne c (by simp)
    | cons c' cs' => simp [joinSep]

theorem joinSep_getLast?_ne_slash (comps : List (List Char)) (h : comps ≠ [])
    (hcl : ∀ c ∈ comps, c ≠ [] ∧ '/' ∉ c) :
    (joinSep ['/'] comps).getLast? ≠ some '/' := by
  induction comps with
  | nil => exact absurd rfl h
  | cons c cs ih =>
    cases cs with
    | nil =>
      intro hcon
      have hm : '/' ∈ c := List.mem_of_mem_getLast? (by simpa [joinSep] using hcon)
      exact (hcl c (by simp)).2 hm
    | cons c' cs' =>
      rw [joinSep_cons_of_ne_nil _ _ _ (by simp),
        List.getLast?_append_of_ne_nil _
          (joinSep_ne_nil _ (by simp) (fun x hx => (hcl x (by simp [hx])).1))]
      exact ih (by simp) (fun x hx => hcl x (by simp [hx]))

theorem splitOnP_slash_joinSep_append (tail : List Char) :
    ∀ (comps : List (List Char)), comps ≠ [] → (∀ c ∈ comps, '/' ∉ c) →
      (joinSep ['/'] comps ++ '/' :: tail).splitOnP (· == '/')
        = comps ++ tail.splitOnP (· == '/') := by
  intro comps
  induction comps with
  | nil => intro h _; exact absurd rfl h
  | cons c cs ih =>
    intro _ hns
    have hc : ∀ x ∈ c, ¬((fun x => x == '/') x = true) := by
      intro x hx hxe
      rw [beq_iff_eq] at hxe
      exact (hns c (by simp)) (hxe ▸ hx)
    cases cs with
    | nil =>
      simp only [joinSep]
      rw [List.splitOnP_first _ _ hc '/' (by simp) tail]
      rfl
    | cons c' cs' =>
      rw [joinSep_cons_of_ne_nil _ _ _ (by simp)]
      rw [show (c ++ ['/'] ++ joinSep ['/'] (c' :: cs')) ++ '/' :: tail
            = c ++ '/' :: (joinSep ['/'] (c' :: cs') ++ '/' :: tail) by
          simp [List.append_assoc]]
      rw [List.splitOnP_first _ _ hc '/' (by simp) _]
      rw [ih (by simp) (fun x hx => hns x (by simp [hx]))]
      rfl

theorem foldl_normStep_clean (b : Bool) :
    ∀ (comps : List (List Char)),
      (∀ c ∈ comps, c ≠ [] ∧ c ≠ ['.'] ∧ c ≠ ['.', '.']) →
      ∀ s, comps.foldl (normStep b) s = comps.reverse ++ s := by
  intro comps
  induction comps with
  | nil => intro _ s; rfl
  | cons c cs ih =>
    intro hcl s
    obtain ⟨hc1, hc2, hc3⟩ := hcl c (by simp)
    have hstep : normStep b s c = c :: s := by
      simp [normStep, hc1, hc2, hc3]
    rw [List.foldl_cons, hstep, ih (fun x hx => hcl x (by simp [hx])) (c :: s)]
    simp

theorem joinSep_append_singleton (v : List Char) :
    ∀ (comps : List (List Char)), comps ≠ [] →
      joinSep ['/'] (comps ++ [v]) = joinSep ['/'] comps ++ '/' :: v := by
  intro comps
  induction comps with
  | nil => intro h; exact absurd rfl h
  | cons c cs ih =>
    intro _
    cases cs with
    | nil => simp [joinSep]
    | cons c' cs' =>
      rw [show (c :: c' :: cs') ++ [v] = c :: ((c' :: cs') ++ [v]) from rfl,
        joinSep_cons_of_ne_nil _ _ _ (by simp), ih (by simp)]
      conv_rhs => rw [joinSep_cons_of_ne_nil ['/'] c (c' :: cs') (by simp)]
      simp [List.append_assoc]

theorem joinOne_data_rel (a b : String) (hb : b.data.take 1 ≠ ['/'])
    (ha : a.data ≠ []) (hl : a.data.getLast? ≠ some '/') :
    (joinOne a b).data = a.data ++ '/' :: b.data := by
  unfold joinOne
  rw [if_neg hb, if_neg (not_or.mpr ⟨ha, hl⟩)]
  rw [String.data_append, String.data_append, List.append_assoc]
  rfl

theorem normpath_clean_abs (comps : List (List Char)) (hne : comps ≠ [])
    (hcl : ∀ c ∈ comps, c ≠ [] ∧ '/' ∉ c ∧ c ≠ ['.'] ∧ c ≠ ['.', '.']) :
    normpath ⟨'/' :: (joinSep ['/'] comps
        ++ '/' :: ['b', 'i', 'n', '/', '.', '.', '/', '.', 'v', 'e', 'n', 'v'])⟩
      = ⟨'/' :: (joinSep ['/'] comps ++ '/' :: ['.', 'v', 'e', 'n', 'v'])⟩ := by
  obtain ⟨c0, cs, rfl⟩ : ∃ c0 cs, comps = c0 :: cs := by
    cases comps with
    | nil => exact absurd rfl hne
    | cons c0 cs => exact ⟨c0, cs, rfl⟩
  obtain ⟨ch0, c0', hch⟩ : ∃ ch0 c0', c0 = ch0 :: c0' := by
    rcases hc0 : c0 with - | ⟨x, xs⟩
    · exact absurd (hc0 ▸ rfl) (hcl c0 (by simp)).1
    · exact ⟨x, xs, rfl⟩
  have hch0 : ch0 ≠ '/' := by
    intro hcon
    exact (hcl c0 (by simp)).2.1 (by rw [hch, hcon]; simp)
  have hhead : ∃ l, joinSep ['/'] (c0 :: cs) = ch0 :: l := by
    cases cs with
    | nil => exact ⟨c0', by simp [joinSep, hch]⟩
    | cons c' cs' =>
      refine ⟨c0' ++ ['/'] ++ joinSep ['/'] (c' :: cs'), ?_⟩
      rw [joinSep_cons_of_ne_nil _ _ _ (by simp), hch]
      simp
  obtain ⟨l, hl⟩ := hhead
  have ht1 : ('/' :: (joinSep ['/'] (c0 :: cs)
      ++ '/' :: ['b', 'i', 'n', '/', '.', '.', '/', '.', 'v', 'e', 'n', 'v'])).take 1
      = ['/'] := rfl
  have ht2 : ('/' :: (joinSep ['/'] (c0 :: cs)
      ++ '/' :: ['b', 'i', 'n', '/', '.', '.', '/', '.', 'v', 'e', 'n', 'v'])).take 2
      ≠ ['/', '/'] := by
    rw [hl]
    simp [hch0]
  have hsplit : ('/' :: (joinSep ['/'] (c0 :: cs)
      ++ '/' :: ['b', 'i', 'n', '/', '.', '.', '/', '.', 'v', 'e', 'n', 'v'])).splitOn '/'
      = [] :: ((c0 :: cs)
          ++ [['b', 'i', 'n'], ['.', '.'], ['.', 'v', 'e', 'n', 'v']]) := by
    simp only [List.splitOn, List.splitOnP_cons]
    rw [if_pos (by simp)]
    rw [splitOnP_slash_joinSep_append _ (c0 :: cs) (by simp)
      (fun x hx => (hcl x hx).2.1)]
    rfl
  have s1 : ∀ s : List (List Char), normStep true s ['b', 'i', 'n'] = ['b', 'i', 'n'] :: s :=
    fun s => by simp [normStep]
  have s2 : ∀ s : List (List Char), normStep true (['b', 'i', 'n'] :: s) ['.', '.'] = s :=
    fun s => by simp [normStep]
  have s3 : ∀ s : List (List Char),
      normStep true s ['.', 'v', 'e', 'n', 'v'] = ['.', 'v', 'e', 'n', 'v'] :: s :=
    fun s => by simp [normStep]
  have hfold : (([] : List Char) :: ((c0 :: cs)
        ++ [['b', 'i', 'n'], ['.', '.'], ['.', 'v', 'e', 'n', 'v']])).foldl (normStep true) []
      = ['.', 'v', 'e', 'n', 'v'] :: (c0 :: cs).reverse := by
    rw [List.foldl_cons, show normStep true [] [] = [] from rfl, List.foldl_append,
      foldl_normStep_clean true (c0 :: cs)
        (fun x hx => ⟨(hcl x hx).1, (hcl x hx).2.2.1, (hcl x hx).2.2.2⟩) []]
    simp only [List.append_nil, List.foldl_cons, List.foldl_nil]
    rw [s1, s2, s3]
  have hjoin : joinSep ['/'] ((c0 :: cs) ++ [['.', 'v', 'e', 'n', 'v']])
      = joinSep ['/'] (c0 :: cs) ++ '/' :: ['.', 'v', 'e', 'n', 'v'] :=
    joinSep_append_singleton _ (c0 :: cs) (by simp)
  have hdec : (decide ((1 : Nat) ≠ 0)) = true := by decide
  unfold normpath
  simp only [ht1, ht2]
  simp only [false_and, if_false, if_true, ite_true, ite_false]
  simp only [hdec, hsplit, hfold, List.reverse_cons, List.reverse_reverse, hjoin]
  simp
  rw [show (c0 :: (cs ++ [['.', 'v', 'e', 'n', 'v']]))
        = ((c0 :: cs) ++ [['.', 'v', 'e', 'n', 'v']]) from rfl, hjoin]

theorem VENV_DIR_of_cleanAbs (root : String) (h : cleanAbsPath root) :
    VENV_DIR root = root ++ "/.venv" := by
  obtain ⟨comps, hne, hcl, hdata⟩ := h
  have hjs_ne : joinSep ['/'] comps ≠ [] :=
    joinSep_ne_nil comps hne (fun c hc => (hcl c hc).1)
  have hroot_ne : root.data ≠ [] := by rw [hdata]; simp
  have hroot_last : root.data.getLast? ≠ some '/' := by
    rw [hdata, show ('/' :: joinSep ['/'] comps) = ['/'] ++ joinSep ['/'] comps from rfl,
      List.getLast?_append_of_ne_nil _ hjs_ne]
    exact joinSep_getLast?_ne_slash comps hne
      (fun c hc => ⟨(hcl c hc).1, (hcl c hc).2.1⟩)
  have h1 : (joinOne root "bin").data = root.data ++ '/' :: ['b', 'i', 'n'] :=
    joinOne_data_rel root "bin" (by decide) hroot_ne hroot_last
  have h1ne : (joinOne root "bin").data ≠ [] := by rw [h1]; simp
  have h1last : (joinOne root "bin").data.getLast? ≠ some '/' := by
    rw [h1, List.getLast?_append_of_ne_nil _ (by simp)]
    decide
  have h2 : (joinOne (joinOne root "bin") "..").data
      = (root.data ++ '/' :: ['b', 'i', 'n']) ++ '/' :: ['.', '.'] := by
    rw [joinOne_data_rel _ ".." (by decide) h1ne h1last, h1]
  have h2ne : (joinOne (joinOne root "bin") "..").data ≠ [] := by rw [h2]; simp
  have h2last : (joinOne (joinOne root "bin") "..").data.getLast? ≠ some '/' := by
    rw [h2, List.getLast?_append_of_ne_nil _ (by simp)]
    decide
  have h3 : (joinOne (joinOne (joinOne root "bin") "..") ".venv").data
      = ((root.data ++ '/' :: ['b', 'i', 'n']) ++ '/' :: ['.', '.'])
          ++ '/' :: ['.', 'v', 'e', 'n', 'v'] := by
    rw [joinOne_data_rel _ ".venv" (by decide) h2ne h2last, h2]
  have hP : joinOne (joinOne (CURRENT_DIR root) "..") ".venv"
      = ⟨'/' :: (joinSep ['/'] comps
          ++ '/' :: ['b', 'i', 'n', '/', '.', '.', '/', '.', 'v', 'e', 'n', 'v'])⟩ := by
    apply String.ext
    rw [show CURRENT_DIR root = joinOne root "bin" from rfl, h3, hdata]
    simp [List.append_assoc]
  calc VENV_DIR root
      = normpath ⟨'/' :: (joinSep ['/'] comps
          ++ '/' :: ['b', 'i', 'n', '/', '.', '.', '/', '.', 'v', 'e', 'n', 'v'])⟩ := by
        rw [show VENV_DIR root
            = normpath (joinOne (joinOne (CURRENT_DIR root) "..") ".venv") from rfl, hP]
    _ = ⟨'/' :: (joinSep ['/'] comps ++ '/' :: ['.', 'v', 'e', 'n', 'v'])⟩ :=
        normpath_clean_abs comps hne hcl
    _ = root ++ "/.venv" := by
        apply String.ext
        rw [String.data_append, hdata]
        simp

/-- C8: the target venv directory is a pure function of the project root —
for a clean absolute project root it is exactly `<project-root>/.venv` — and
no user input can change it independently of that root: for every choice of
the user-controllable arguments, the single script `setup_venv` executes
targets `VENV_DIR root`, and the installer path heading every `pip_install`
command is fixed relative to that venv directory as
`<project-root>/.venv/bin/pip`. -/
theorem venv_dir_is_pure_function_of_project_root (root : String) (w : World)
    (tmp : String) (fs : FS) (sysd idx ppath : String) (vpath extra : Option String)
    (h : cleanAbsPath root) :
    VENV_DIR root = root ++ "/.venv"
    ∧ execScripts (setup_venv w tmp fs root sysd vpath ppath).1
        = [composeScript [resolve_virtualenv fs vpath ppath sysd,
            "--python=" ++ ppath, "--never-download", VENV_DIR root] none "/bin/bash"]
    ∧ (pipBaseCommands root idx extra).head?
        = some (joinOne (joinOne (VENV_DIR root) "bin") "pip")
    ∧ joinOne (joinOne (VENV_DIR root) "bin") "pip" = root ++ "/.venv/bin/pip" := by
  have hVenv := VENV_DIR_of_cleanAbs root h
  refine ⟨hVenv, ?_, rfl, ?_⟩
  · by_cases hrc : (w (composeScript [resolve_virtualenv fs vpath ppath sysd,
        "--python=" ++ ppath, "--never-download", VENV_DIR root] none "/bin/bash")).1 = 0 <;>
      simp [setup_venv, run_shell_command, hrc, execScripts_append,
        execScripts_cons_mkstemp, execScripts_cons_log, execScripts_cons_chmod,
        execScripts_cons_exec, execScripts_cons_printed, execScripts_cons_unlink,
        execScripts_nil]
  · rw [hVenv]
    have ha : (root ++ "/.venv").data ≠ [] := by
      rw [String.data_append]
      simp
    have hal : (root ++ "/.venv").data.getLast? ≠ some '/' := by
      rw [String.data_append, List.getLast?_append_of_ne_nil _ (by decide)]
      decide
    have j1 : (joinOne (root ++ "/.venv") "bin").data
        = (root ++ "/.venv").data ++ '/' :: ['b', 'i', 'n'] :=
      joinOne_data_rel _ "bin" (by decide) ha hal
    have j1ne : (joinOne (root ++ "/.venv") "bin").data ≠ [] := by rw [j1]; simp
    have j1last : (joinOne (root ++ "/.venv") "bin").data.getLast? ≠ some '/' := by
      rw [j1, List.getLast?_append_of_ne_nil _ (by simp)]
      decide
    apply String.ext
    rw [joinOne_data_rel _ "pip" (by decide) j1ne j1last, j1,
      String.data_append, String.data_append]
    simp

theorem venv_dir_is_pure_function_of_project_root_witness :
    VENV_DIR "/proj" = "/proj" ++ "/.venv"
    ∧ execScripts (setup_venv (fun _ => ((0 : Int), "")) "/tmp/t0" [] "/proj" "/usr"
          none "/usr/bin/python").1
        = [composeScript [resolve_virtualenv [] none "/usr/bin/python" "/usr",
            "--python=" ++ "/usr/bin/python", "--never-download", VENV_DIR "/proj"]
            none "/bin/bash"]
    ∧ (pipBaseCommands "/proj" "https://pypi.org/simple" none).head?
        = some (joinOne (joinOne (VENV_DIR "/proj") "bin") "pip")
    ∧ joinOne (joinOne (VENV_DIR "/proj") "bin") "pip" = "/proj" ++ "/.venv/bin/pip" :=
  venv_dir_is_pure_function_of_project_root "/proj" (fun _ => ((0 : Int), ""))
    "/tmp/t0" [] "/usr" "https://pypi.org/simple" "/usr/bin/python" none none
    ⟨[['p', 'r', 'o', 'j']], by decide, by decide, rfl⟩

end Bootstrap
